import Mathlib

/-!
Shallow embedding of the Mechanic-API backend (Flask + SQLAlchemy) and proofs
about its request handlers.

The data model follows `src/application/models.py`; the request handlers are
translated from `src/application/blueprints/customer/routes.py`,
`src/application/blueprints/mechanic/routes.py`,
`src/application/blueprints/service_ticket/routes.py` and the JWT decorator in
`src/application/extensions.py`.  The relational store is modelled as lists of
rows; HTTP outcomes are modelled by their status codes.
-/

namespace MechanicAPI

/-- A row of the `customer` table (models.py, class Customer): id,
first_name, last_name, email; fields not consulted by the verified handlers
(phone, address, created_at) are omitted.  The model defines no password
column, although customerSchemas.py declares a `password` schema field and
the login route reads `customer.password` — see `login`. -/
structure Customer where
  id : Nat
  first_name : String
  last_name : String
  email : String
deriving DecidableEq, Repr

/-- A row of the `mechanic` table (models.py, class Mechanic); fields not
consulted by the verified handlers are omitted. -/
structure Mechanic where
  id : Nat
  first_name : String
  last_name : String
  email : String
deriving DecidableEq, Repr

/-- A row of the `service_ticket` table (models.py, class ServiceTicket)
together with its side of the `service_ticket_mechanics` association table:
`mechanics` is the list of mechanic ids joined to this ticket. -/
structure ServiceTicket where
  id : Nat
  customer_id : Nat
  description : String
  status : String
  completed_at : Option Nat
  mechanics : List Nat
deriving DecidableEq, Repr

/-- The persistent store: the three tables used by the verified handlers. -/
structure DB where
  customers : List Customer
  mechanics : List Mechanic
  tickets : List ServiceTicket
deriving DecidableEq, Repr

/-- `Customer.query.get(cid)` / `select(Customer).where(Customer.id == cid)`. -/
def DB.findCustomer (db : DB) (cid : Nat) : Option Customer :=
  db.customers.find? (fun c => c.id == cid)

/-- `Mechanic.query.get(mid)`. -/
def DB.findMechanic (db : DB) (mid : Nat) : Option Mechanic :=
  db.mechanics.find? (fun m => m.id == mid)

/-- `ServiceTicket.query.get(tid)`. -/
def DB.findTicket (db : DB) (tid : Nat) : Option ServiceTicket :=
  db.tickets.find? (fun t => t.id == tid)

/-- Committing a mutation of one ticket row: the row with the same id is
replaced by the updated row. -/
def DB.setTicket (db : DB) (t : ServiceTicket) : DB :=
  { db with tickets := db.tickets.map (fun u => if u.id == t.id then t else u) }

/-! ### JWT tokens (src/application/extensions.py)

A decoded HS256 token carries the payload written by `encode_token` plus the
key it was signed with; `jwt.decode(tok, secret)` verifies the signature by
comparing the signing key with `secret`, then checks the `exp` claim. -/

/-- A signed JWT: payload `{sub, exp, iat}` plus the HS256 signing key. -/
structure Jwt where
  sub : Nat
  exp : Nat
  iat : Nat
  key : String
deriving DecidableEq, Repr

/-- `encode_token(customer_id)` (extensions.py): subject = customer id,
expiry 24 hours after issue, signed with the app secret. -/
def encode_token (secret : String) (now customer_id : Nat) : Jwt :=
  { sub := customer_id, exp := now + 24 * 3600, iat := now, key := secret }

/-- One space-separated part of an `Authorization` header value: either a
well-formed signed JWT or any other string (which `jwt.decode` rejects with
`InvalidTokenError`). -/
inductive JwtStr
  | signed (tok : Jwt)
  | garbage (s : String)
deriving DecidableEq, Repr

/-- The part of an HTTP request consulted by `token_required`: the
`Authorization` header, already split on `' '` into its parts. -/
structure Request where
  auth_header : Option (List JwtStr)
deriving Repr

/-- `token_required` (extensions.py lines 48-86): extracts
`auth_header.split(' ')[1]`, answering 401 when the header is absent
(`Token is missing`), has no second part (`IndexError` → format invalid), the
second part is the empty string (falsy → missing), or `jwt.decode` fails
(invalid signature or `ExpiredSignatureError`); otherwise calls the wrapped
handler with the token's `sub`.  The decorator performs no database access. -/
def token_required (secret : String) (now : Nat) (handler : Nat → DB → Nat × DB)
    (req : Request) (db : DB) : Nat × DB :=
  match req.auth_header with
  | none => (401, db)
  | some parts =>
    match parts[1]? with
    | none => (401, db)
    | some part =>
      if part == JwtStr.garbage "" then (401, db)
      else
        match part with
        | JwtStr.garbage _ => (401, db)
        | JwtStr.signed tok =>
          if tok.key != secret then (401, db)
          else if tok.exp < now then (401, db)
          else handler tok.sub db

/-! ### Customer handlers (src/application/blueprints/customer/routes.py) -/

/-- The body of a create-customer request after JSON parsing
(customerSchemas.py declares these four fields required). -/
structure CustomerCreate where
  first_name : String
  last_name : String
  email : String
  password : String
deriving DecidableEq, Repr

/-- Marshmallow's `Email` validator, external to this repository; abstracted
as requiring an `@` in the address. -/
def email_ok (s : String) : Bool :=
  s.contains '@'

/-- Field validation of `CustomerSchema` (customerSchemas.py): name lengths
in 1..50, a well-formed email, password length at least 6. -/
def customer_schema_valid (r : CustomerCreate) : Bool :=
  decide (1 ≤ r.first_name.length) && decide (r.first_name.length ≤ 50) &&
  decide (1 ≤ r.last_name.length) && decide (r.last_name.length ≤ 50) &&
  email_ok r.email && decide (6 ≤ r.password.length)

/-- `create_customer` (customer/routes.py lines 14-35): schema validation
errors answer 400; committing a row whose email collides with the unique
`Customer.email` column raises `IntegrityError`, which the handler catches,
rolls back, and reports as 409; otherwise the row (with the next
autoincrement id `new_id`) is inserted and 201 returned.  Only the model's
columns are persisted — the schema's `password` value has no column. -/
def create_customer (db : DB) (req : CustomerCreate) (new_id : Nat) : Nat × DB :=
  if customer_schema_valid req then
    if db.customers.any (fun c => c.email == req.email) then
      (409, db)
    else
      (201, { db with customers := db.customers ++
        [{ id := new_id, first_name := req.first_name, last_name := req.last_name,
           email := req.email }] })
  else
    (400, db)

/-- `delete_customer_protected` (customer/routes.py lines 176-196): answers
403 on an identity mismatch and 404 when the row is absent, then runs
`db.session.delete(customer); db.session.commit()` with no ticket check and
no exception handler.  `ServiceTicket.customer_id` is `nullable=False` and
the `Customer.service_tickets` relationship carries no delete cascade, so
when the customer still owns tickets the commit's attempt to null their
foreign keys raises `IntegrityError`, which propagates out of the handler as
an HTTP 500 with the transaction rolled back. -/
def delete_customer_protected (db : DB) (authenticated_customer_id customer_id : Nat) :
    Nat × DB :=
  if authenticated_customer_id != customer_id then (403, db)
  else
    match db.findCustomer customer_id with
    | none => (404, db)
    | some _ =>
      if db.tickets.any (fun t => t.customer_id == customer_id) then (500, db)
      else (200, { db with customers := db.customers.filter (fun c => c.id != customer_id) })

/-! ### Mechanic handlers (src/application/blueprints/mechanic/routes.py) -/

/-- `delete_mechanic` (mechanic/routes.py lines 92-111): 404 when the row is
absent; 409 when `mechanic.service_tickets.count() > 0`, i.e. some ticket is
joined to the mechanic; otherwise the row is deleted and 200 returned. -/
def delete_mechanic (db : DB) (mechanic_id : Nat) : Nat × DB :=
  match db.findMechanic mechanic_id with
  | none => (404, db)
  | some _ =>
    if db.tickets.any (fun t => t.mechanics.contains mechanic_id) then (409, db)
    else (200, { db with mechanics := db.mechanics.filter (fun m => m.id != mechanic_id) })

/-- The number of `service_ticket_mechanics` rows carrying `mechanic_id =
mid`: the aggregate `func.count` of the outer join in
`get_mechanics_by_workload`. -/
def ticket_count (db : DB) (mid : Nat) : Nat :=
  (db.tickets.map (fun t => t.mechanics.count mid)).sum

/-- The `ORDER BY ticket_count DESC` relation on (mechanic, count) result
rows: earlier rows carry counts at least as large. -/
def workGE (a b : Mechanic × Nat) : Prop :=
  b.2 ≤ a.2

instance : DecidableRel workGE :=
  fun a b => inferInstanceAs (Decidable (b.2 ≤ a.2))

instance : IsTotal (Mechanic × Nat) workGE :=
  ⟨fun a b => Nat.le_total b.2 a.2⟩

instance : IsTrans (Mechanic × Nat) workGE :=
  ⟨fun _ _ _ hab hbc => Nat.le_trans hbc hab⟩

/-- `get_mechanics_by_workload` (mechanic/routes.py lines 114-141): one
result row per mechanic row, pairing it with its association-row count (an
outer join, so mechanics without tickets appear with count 0), sorted by
descending count (ties in an unspecified order, realised here by a stable
insertion sort). -/
def mechanics_by_workload (db : DB) : List (Mechanic × Nat) :=
  List.insertionSort workGE (db.mechanics.map (fun m => (m, ticket_count db m.id)))

/-! ### Service-ticket handlers
(src/application/blueprints/service_ticket/routes.py) -/

/-- `assign_mechanic` (service_ticket/routes.py lines 129-153): 404 when the
ticket or the mechanic is absent; 409 when the mechanic is already in the
ticket's mechanic set; otherwise the mechanic is appended and 200 returned. -/
def assign_mechanic (db : DB) (ticket_id mechanic_id : Nat) : Nat × DB :=
  match db.findTicket ticket_id with
  | none => (404, db)
  | some ticket =>
    match db.findMechanic mechanic_id with
    | none => (404, db)
    | some _ =>
      if ticket.mechanics.contains mechanic_id then (409, db)
      else (200, db.setTicket { ticket with mechanics := ticket.mechanics ++ [mechanic_id] })

/-- `remove_mechanic` (service_ticket/routes.py lines 156-180): 404 when the
ticket or the mechanic is absent; 409 when the mechanic is not in the
ticket's mechanic set; otherwise it is removed and 200 returned. -/
def remove_mechanic (db : DB) (ticket_id mechanic_id : Nat) : Nat × DB :=
  match db.findTicket ticket_id with
  | none => (404, db)
  | some ticket =>
    match db.findMechanic mechanic_id with
    | none => (404, db)
    | some _ =>
      if ticket.mechanics.contains mechanic_id then
        (200, db.setTicket { ticket with mechanics := ticket.mechanics.erase mechanic_id })
      else (409, db)

/-- The JSON body of a service-ticket update request: the fields
`ServiceTicketSchema` would load (`completed_at` is `dump_only`, so a
request can never set it).  The dispatched route dies before reading it. -/
structure TicketUpdate where
  customer_id : Option Nat
  description : Option String
  status : Option String
deriving DecidableEq, Repr

/-- The dispatched endpoint `PUT /service-tickets/<ticket_id>`
(service_ticket/routes.py lines 71-108, wrapped by the `@token_required` of
extensions.py).  After a token validates, the decorator invokes the view as
`f(customer_id, ticket_id=...)`, but `update_service_ticket(ticket_id)`
accepts a single parameter, so the call raises `TypeError` (multiple values
for `ticket_id`) before the view body runs — and the body itself reads the
never-set `request.customer_id`.  Flask reports the uncaught `TypeError` as
HTTP 500 with the store untouched; the body's status merge and
`completed_at` rule (lines 85-99) are dead code.  The handler passed to
`token_required` here models that raising call. -/
def update_service_ticket_route (secret : String) (now : Nat) (req : Request)
    (ticket_id : Nat) (u : TicketUpdate) (db : DB) : Nat × DB :=
  token_required secret now (fun _customer_id db => (500, db)) req db

/-- A JSON value appearing in the `add_ids` / `remove_ids` arrays of a
bulk-edit body: an integer id, or anything else (rejected per id by the
`isinstance(mechanic_id, int)` check). -/
inductive ReqId
  | int (n : Nat)
  | notInt
deriving DecidableEq, Repr

/-- The per-id warning messages collected by `edit_ticket_mechanics`. -/
inductive Warn
  | invalidRemoveId
  | invalidAddId
  | mechanicNotFound (mid : Nat)
  | notAssigned (mid : Nat)
  | alreadyAssigned (mid : Nat)
deriving DecidableEq, Repr

/-- The removal loop of `edit_ticket_mechanics`: each id is checked
independently (non-integer, unknown mechanic, or not currently assigned each
produce a warning), assigned mechanics are removed from the working set as
the loop advances.  Returns the working set after all removals, the ids
removed (in order), and the warnings (in order). -/
def processRemove (db : DB) (mechs : List Nat) :
    List ReqId → List Nat × List Nat × List Warn
  | [] => (mechs, [], [])
  | ReqId.notInt :: rest =>
    let (m, r, w) := processRemove db mechs rest
    (m, r, Warn.invalidRemoveId :: w)
  | ReqId.int n :: rest =>
    if (db.findMechanic n).isSome then
      if mechs.contains n then
        let (m, r, w) := processRemove db (mechs.erase n) rest
        (m, n :: r, w)
      else
        let (m, r, w) := processRemove db mechs rest
        (m, r, Warn.notAssigned n :: w)
    else
      let (m, r, w) := processRemove db mechs rest
      (m, r, Warn.mechanicNotFound n :: w)

/-- The addition loop of `edit_ticket_mechanics`, run on the working set left
by the removal loop: non-integers, unknown mechanics, and already-assigned
mechanics each produce a warning; the rest are appended. -/
def processAdd (db : DB) (mechs : List Nat) :
    List ReqId → List Nat × List Nat × List Warn
  | [] => (mechs, [], [])
  | ReqId.notInt :: rest =>
    let (m, a, w) := processAdd db mechs rest
    (m, a, Warn.invalidAddId :: w)
  | ReqId.int n :: rest =>
    if (db.findMechanic n).isSome then
      if mechs.contains n then
        let (m, a, w) := processAdd db mechs rest
        (m, a, Warn.alreadyAssigned n :: w)
      else
        let (m, a, w) := processAdd db (mechs ++ [n]) rest
        (m, n :: a, w)
    else
      let (m, a, w) := processAdd db mechs rest
      (m, a, Warn.mechanicNotFound n :: w)

/-- The response of `edit_ticket_mechanics`: status, the applied changes
(`changes.removed` / `changes.added`, here as id lists), and the warnings. -/
structure EditResponse where
  status : Nat
  removed : List Nat
  added : List Nat
  warnings : List Warn
deriving DecidableEq, Repr

/-- `edit_ticket_mechanics` (service_ticket/routes.py lines 213-298): 404
when the ticket is absent; otherwise the removal loop runs over
`remove_ids`, then the addition loop over `add_ids` against the updated set,
warnings from both loops are concatenated in order, the resulting mechanic
set is committed, and 200 is returned with the applied changes and the
warnings. -/
def edit_ticket_mechanics (db : DB) (ticket_id : Nat)
    (remove_ids add_ids : List ReqId) : EditResponse × DB :=
  match db.findTicket ticket_id with
  | none => ({ status := 404, removed := [], added := [], warnings := [] }, db)
  | some t =>
    let (m1, removed, w1) := processRemove db t.mechanics remove_ids
    let (m2, added, w2) := processAdd db m1 add_ids
    ({ status := 200, removed := removed, added := added, warnings := w1 ++ w2 },
     db.setTicket { t with mechanics := m2 })

/-! ### A concrete store used by witnesses -/

/-- Customer 1, used in witnesses; owns ticket 1. -/
def annRow : Customer :=
  { id := 1, first_name := "Ann", last_name := "Ayers", email := "ann@x.com" }

/-- Customer 2, used in witnesses; owns no tickets. -/
def bobRow : Customer :=
  { id := 2, first_name := "Bob", last_name := "Best", email := "bob@x.com" }

/-- Ticket 1, used in witnesses; owned by customer 1, mechanic 1 assigned. -/
def exTicket : ServiceTicket :=
  { id := 1, customer_id := 1, description := "brakes", status := "Open",
    completed_at := none, mechanics := [1] }

/-- A concrete store: two customers, two mechanics (mechanic 1 assigned to
ticket 1, mechanic 2 unassigned), one open ticket owned by customer 1. -/
def exDB : DB :=
  { customers := [annRow, bobRow],
    mechanics := [
      { id := 1, first_name := "Tom", last_name := "Torque", email := "tom@shop.com" },
      { id := 2, first_name := "Uma", last_name := "Union", email := "uma@shop.com" }],
    tickets := [exTicket] }

/-! ### C1: deleting a customer that owns tickets -/

/-- C1: the claim says deleting a Customer that owns a ServiceTicket yields a
Conflict (409) outcome.  The code (`delete_customer_protected`) has no such
check: on the concrete store, deleting customer 1 (who owns ticket 1) raises
an unhandled `IntegrityError` at commit, observable as HTTP 500 — not 409 —
with the store unchanged, while deleting the ticketless customer 2 succeeds
and removes exactly that row. -/
theorem delete_customer_with_tickets_is_500_not_conflict :
    delete_customer_protected exDB 1 1 = (500, exDB) ∧
    (delete_customer_protected exDB 2 2).1 = 200 ∧
    (delete_customer_protected exDB 2 2).2 =
      { exDB with customers := [annRow] } := by
  exact ⟨rfl, rfl, rfl⟩

/-! ### C2: duplicate assignment / absent removal are conflicts -/

/-- C2: with ticket `t` and the mechanic both present, assigning a mechanic
already in `t`'s mechanic set answers 409 and leaves the store unchanged
(and, the set being duplicate-free, it has exactly one entry for that
mechanic); removing a mechanic not in the set likewise answers 409 and
leaves the store unchanged. -/
theorem assign_remove_existing_state_conflict (db : DB) (tid mid : Nat)
    (t : ServiceTicket) (ht : db.findTicket tid = some t)
    (hm : (db.findMechanic mid).isSome = true) :
    (mid ∈ t.mechanics →
      assign_mechanic db tid mid = (409, db) ∧
      (t.mechanics.Nodup → t.mechanics.count mid = 1)) ∧
    (mid ∉ t.mechanics → remove_mechanic db tid mid = (409, db)) := by
  obtain ⟨m, hm'⟩ := Option.isSome_iff_exists.mp hm
  constructor
  · intro hmem
    constructor
    · simp [assign_mechanic, ht, hm', hmem]
    · intro hnd
      exact List.count_eq_one_of_mem hnd hmem
  · intro hmem
    simp [remove_mechanic, ht, hm', hmem]

/-- Witness for C2 on the concrete store: mechanic 1 is already on ticket 1,
so re-assigning conflicts and the set holds it once; mechanic 2 is not on
ticket 1, so removing it conflicts. -/
theorem assign_remove_existing_state_conflict_witness :
    assign_mechanic exDB 1 1 = (409, exDB) ∧
    exTicket.mechanics.count 1 = 1 ∧
    remove_mechanic exDB 1 2 = (409, exDB) := by
  have h1 := assign_remove_existing_state_conflict exDB 1 1 exTicket rfl (by decide)
  have h2 := assign_remove_existing_state_conflict exDB 1 2 exTicket rfl (by decide)
  exact ⟨(h1.1 (by decide)).1, (h1.1 (by decide)).2 (by decide), h2.2 (by decide)⟩

/-! ### C5: duplicate customer email -/

/-- C5: a create-customer request whose email matches an existing row never
creates a second row: the store is returned unchanged in every case, and
when the request passes field validation the outcome is exactly 409
(the unique-email `IntegrityError` handler). -/
theorem create_customer_duplicate_email_conflict (db : DB) (req : CustomerCreate)
    (new_id : Nat) (c : Customer) (hc : c ∈ db.customers) (he : c.email = req.email) :
    (customer_schema_valid req = true → create_customer db req new_id = (409, db)) ∧
    (create_customer db req new_id).2 = db := by
  have hany : db.customers.any (fun x => x.email == req.email) = true := by
    rw [List.any_eq_true]
    exact ⟨c, hc, by simp [he]⟩
  constructor
  · intro hv
    simp [create_customer, hv, hany]
  · cases hv : customer_schema_valid req <;> simp [create_customer, hv, hany]

/-- Witness for C5: re-registering Ann's email (on an otherwise valid
request) conflicts and leaves the store unchanged. -/
theorem create_customer_duplicate_email_conflict_witness :
    (customer_schema_valid
        { first_name := "Anna", last_name := "Other", email := "ann@x.com",
          password := "p4ssw0rd" } = true →
      create_customer exDB
        { first_name := "Anna", last_name := "Other", email := "ann@x.com",
          password := "p4ssw0rd" } 3 = (409, exDB)) ∧
    (create_customer exDB
        { first_name := "Anna", last_name := "Other", email := "ann@x.com",
          password := "p4ssw0rd" } 3).2 = exDB :=
  create_customer_duplicate_email_conflict exDB
    { first_name := "Anna", last_name := "Other", email := "ann@x.com",
      password := "p4ssw0rd" } 3 annRow (by decide) (by decide)

/-! ### C6: deleting an assigned mechanic -/

/-- C6: for an existing mechanic row, deletion while some ticket has the
mechanic in its set answers 409 with the store unchanged (the row remains);
with no ticket holding the mechanic, deletion answers 200 and removes
exactly the rows with that id, keeping every other mechanic. -/
theorem delete_mechanic_conflict_when_assigned (db : DB) (mid : Nat) (m : Mechanic)
    (hm : db.findMechanic mid = some m) :
    ((∃ t ∈ db.tickets, mid ∈ t.mechanics) → delete_mechanic db mid = (409, db)) ∧
    ((∀ t ∈ db.tickets, mid ∉ t.mechanics) →
      (delete_mechanic db mid).1 = 200 ∧
      (∀ m' ∈ (delete_mechanic db mid).2.mechanics, m'.id ≠ mid) ∧
      (∀ m' ∈ db.mechanics, m'.id ≠ mid → m' ∈ (delete_mechanic db mid).2.mechanics)) := by
  constructor
  · intro ⟨t, htm, hmem⟩
    have hany : db.tickets.any (fun t => t.mechanics.contains mid) = true := by
      rw [List.any_eq_true]
      exact ⟨t, htm, by simpa using hmem⟩
    simp only [delete_mechanic, hm, hany]
    rw [if_pos trivial]
  · intro hno
    have hany : db.tickets.any (fun t => t.mechanics.contains mid) = false := by
      rw [Bool.eq_false_iff]
      intro hc
      obtain ⟨t, htm, hmem⟩ := List.any_eq_true.mp hc
      exact hno t htm (by simpa using hmem)
    simp only [delete_mechanic, hm, hany, Bool.false_eq_true, if_false]
    refine ⟨by simp, ?_, ?_⟩
    · intro m' hm'
      have := (List.mem_filter.mp hm').2
      simpa using this
    · intro m' hm' hne
      exact List.mem_filter.mpr ⟨hm', by simpa using hne⟩

/-- Witness for C6: mechanic 1 is assigned to ticket 1, so deleting it
conflicts; in a store whose only ticket has no mechanics, deleting
mechanic 1 succeeds and no row with id 1 survives. -/
theorem delete_mechanic_conflict_when_assigned_witness :
    delete_mechanic exDB 1 = (409, exDB) ∧
    (delete_mechanic { exDB with tickets := [{ exTicket with mechanics := [] }] } 1).1 = 200 ∧
    (∀ m' ∈ (delete_mechanic { exDB with tickets := [{ exTicket with mechanics := [] }] } 1).2.mechanics,
      m'.id ≠ 1) := by
  have h1 := delete_mechanic_conflict_when_assigned exDB 1
    { id := 1, first_name := "Tom", last_name := "Torque", email := "tom@shop.com" } rfl
  have h2 := delete_mechanic_conflict_when_assigned
    { exDB with tickets := [{ exTicket with mechanics := [] }] } 1
    { id := 1, first_name := "Tom", last_name := "Torque", email := "tom@shop.com" } rfl
  refine ⟨h1.1 ⟨exTicket, by decide, by decide⟩, ?_, ?_⟩
  · exact (h2.2 (by decide)).1
  · exact (h2.2 (by decide)).2.1

/-! ### C10: login failure cases are distinguishable -/

/-- C7: every request whose Authorization header is absent, has no second
space-separated part, carries an undecodable or empty token, a token signed
with the wrong key, or an expired token is answered 401 — uniformly in the
wrapped handler and the store, which is returned unchanged, so the handler
never runs and no persisted state is read or written; a request with a
well-signed unexpired token runs the handler on the embedded subject id. -/
theorem token_required_rejects_before_touching_state (secret : String) (now : Nat)
    (req : Request) :
    (req.auth_header = none →
      ∀ (handler : Nat → DB → Nat × DB) (db : DB),
        token_required secret now handler req db = (401, db)) ∧
    (∀ parts, req.auth_header = some parts → parts[1]? = none →
      ∀ (handler : Nat → DB → Nat × DB) (db : DB),
        token_required secret now handler req db = (401, db)) ∧
    (∀ parts s, req.auth_header = some parts → parts[1]? = some (JwtStr.garbage s) →
      ∀ (handler : Nat → DB → Nat × DB) (db : DB),
        token_required secret now handler req db = (401, db)) ∧
    (∀ parts tok, req.auth_header = some parts →
      parts[1]? = some (JwtStr.signed tok) → tok.key ≠ secret →
      ∀ (handler : Nat → DB → Nat × DB) (db : DB),
        token_required secret now handler req db = (401, db)) ∧
    (∀ parts tok, req.auth_header = some parts →
      parts[1]? = some (JwtStr.signed tok) → tok.exp < now →
      ∀ (handler : Nat → DB → Nat × DB) (db : DB),
        token_required secret now handler req db = (401, db)) ∧
    (∀ parts tok, req.auth_header = some parts →
      parts[1]? = some (JwtStr.signed tok) → tok.key = secret → now ≤ tok.exp →
      ∀ (handler : Nat → DB → Nat × DB) (db : DB),
        token_required secret now handler req db = handler tok.sub db) := by
  refine ⟨?_, ?_, ?_, ?_, ?_, ?_⟩
  · intro hh handler db
    simp [token_required, hh]
  · intro parts hh hp handler db
    simp [token_required, hh, hp]
  · intro parts s hh hp handler db
    by_cases hs : s = "" <;> simp [token_required, hh, hp, hs]
  · intro parts tok hh hp hk handler db
    simp [token_required, hh, hp, hk]
  · intro parts tok hh hp he handler db
    by_cases hk : tok.key = secret <;> simp [token_required, hh, hp, hk, he]
  · intro parts tok hh hp hk he handler db
    simp [token_required, hh, hp, hk, Nat.not_lt.mpr he]

/-- Witness for C7: a missing header and an expired token each answer 401
with the store untouched; a fresh token signed with the app secret runs the
handler on the embedded id. -/
theorem token_required_rejects_before_touching_state_witness :
    token_required "app-secret" 100000 (fun cid db => (200 + cid, db))
      { auth_header := none } exDB = (401, exDB) ∧
    token_required "app-secret" 100000 (fun cid db => (200 + cid, db))
      { auth_header := some [JwtStr.garbage "Bearer",
          JwtStr.signed { sub := 1, exp := 90000, iat := 3600, key := "app-secret" }] }
      exDB = (401, exDB) ∧
    token_required "app-secret" 100000 (fun cid db => (200 + cid, db))
      { auth_header := some [JwtStr.garbage "Bearer",
          JwtStr.signed { sub := 1, exp := 90000 + 86400, iat := 90000, key := "app-secret" }] }
      exDB = (201, exDB) := by
  refine ⟨(token_required_rejects_before_touching_state "app-secret" 100000
    { auth_header := none }).1 rfl _ exDB, ?_, ?_⟩
  · exact (token_required_rejects_before_touching_state "app-secret" 100000
      { auth_header := some [JwtStr.garbage "Bearer",
          JwtStr.signed { sub := 1, exp := 90000, iat := 3600, key := "app-secret" }] }).2.2.2.2.1
      [JwtStr.garbage "Bearer",
        JwtStr.signed { sub := 1, exp := 90000, iat := 3600, key := "app-secret" }]
      { sub := 1, exp := 90000, iat := 3600, key := "app-secret" }
      rfl rfl (by decide) _ exDB
  · exact (token_required_rejects_before_touching_state "app-secret" 100000
      { auth_header := some [JwtStr.garbage "Bearer",
          JwtStr.signed { sub := 1, exp := 90000 + 86400, iat := 90000, key := "app-secret" }] }).2.2.2.2.2
      [JwtStr.garbage "Bearer",
        JwtStr.signed { sub := 1, exp := 90000 + 86400, iat := 90000, key := "app-secret" }]
      { sub := 1, exp := 90000 + 86400, iat := 90000, key := "app-secret" }
      rfl rfl rfl (by decide) _ exDB

/-- C9: the decorator in extensions.py never consults the Customer table:
a request with a well-signed unexpired token reaches the wrapped handler
with the token's subject id even when no Customer row with that id exists. -/
theorem token_required_never_consults_customers (secret : String) (now : Nat)
    (req : Request) (parts : List JwtStr) (tok : Jwt) (db : DB)
    (handler : Nat → DB → Nat × DB)
    (hh : req.auth_header = some parts)
    (hp : parts[1]? = some (JwtStr.signed tok))
    (hkey : tok.key = secret) (hexp : now ≤ tok.exp)
    (hnocust : ∀ c ∈ db.customers, c.id ≠ tok.sub) :
    token_required secret now handler req db = handler tok.sub db := by
  simp [token_required, hh, hp, hkey, Nat.not_lt.mpr hexp]

/-- Witness for C9: a token for the deleted customer id 42 (no such row in
the concrete store) still reaches the handler with subject 42. -/
theorem token_required_never_consults_customers_witness :
    token_required "app-secret" 50 (fun cid db => (200 + cid, db))
      { auth_header := some [JwtStr.garbage "Bearer",
          JwtStr.signed { sub := 42, exp := 86450, iat := 50, key := "app-secret" }] }
      exDB = (242, exDB) :=
  token_required_never_consults_customers "app-secret" 50
    { auth_header := some [JwtStr.garbage "Bearer",
        JwtStr.signed { sub := 42, exp := 86450, iat := 50, key := "app-secret" }] }
    [JwtStr.garbage "Bearer",
      JwtStr.signed { sub := 42, exp := 86450, iat := 50, key := "app-secret" }]
    { sub := 42, exp := 86450, iat := 50, key := "app-secret" }
    exDB (fun cid db => (200 + cid, db)) rfl rfl rfl (by decide) (by decide)

/-! ### C3: the service-ticket update route -/

/-- Replacing a ticket row keeps the replacement in the table. -/
theorem mem_setTicket (db : DB) (t t' : ServiceTicket) (ht : t ∈ db.tickets)
    (hid : t'.id = t.id) : t' ∈ (db.setTicket t').tickets := by
  have himg : (fun u => if u.id == t'.id then t' else u) t = t' := by
    simp [hid]
  have := List.mem_map_of_mem (fun u => if u.id == t'.id then t' else u) ht
  rw [himg] at this
  exact this

/-- C3: the claim describes `completed_at` on successful updates, but no
service-ticket update ever succeeds: for every request the dispatched route
answers 401 (token rejected) or 500 (the decorator's raising call to the
view) and leaves the store unchanged; concretely, a request carrying a
valid token for customer 1, targeting the open ticket 1 with
`status = Completed`, is answered 500 with the store untouched instead of
performing the claimed update. -/
theorem update_service_ticket_route_never_succeeds :
    (∀ (secret : String) (now : Nat) (req : Request) (ticket_id : Nat)
        (u : TicketUpdate) (db : DB),
      ((update_service_ticket_route secret now req ticket_id u db).1 = 401 ∨
        (update_service_ticket_route secret now req ticket_id u db).1 = 500) ∧
      (update_service_ticket_route secret now req ticket_id u db).2 = db) ∧
    update_service_ticket_route "app-secret" 0
      { auth_header := some [JwtStr.garbage "Bearer",
          JwtStr.signed (encode_token "app-secret" 0 1)] }
      1 { customer_id := none, description := none, status := some "Completed" } exDB
      = (500, exDB) := by
  constructor
  · intro secret now req ticket_id u db
    obtain ⟨ah⟩ := req
    rcases ah with _ | parts
    · exact ⟨Or.inl rfl, rfl⟩
    · rcases h1 : parts[1]? with _ | part
      · constructor <;> simp [update_service_ticket_route, token_required, h1]
      · rcases part with tok | s
        · by_cases hk : tok.key = secret
          · by_cases he : tok.exp < now
            · constructor <;>
                simp [update_service_ticket_route, token_required, h1, hk, he]
            · constructor <;>
                simp [update_service_ticket_route, token_required, h1, hk, he]
          · constructor <;> simp [update_service_ticket_route, token_required, h1, hk]
        · by_cases hs : s = ""
          · constructor <;> simp [update_service_ticket_route, token_required, h1, hs]
          · constructor <;> simp [update_service_ticket_route, token_required, h1, hs]
  · rfl

/-! ### C4: the workload report -/

/-- C4: with distinct mechanic rows, the workload report lists every
mechanic exactly once (it is a permutation of the mechanic table, each row
counted once), is sorted by non-increasing ticket count, pairs every row
with its true association count, and a mechanic joined to no ticket appears
paired with count 0. -/
theorem mechanics_by_workload_report (db : DB) (hnd : db.mechanics.Nodup) :
    ((mechanics_by_workload db).map Prod.fst).Perm db.mechanics ∧
    (∀ m ∈ db.mechanics, ((mechanics_by_workload db).map Prod.fst).count m = 1) ∧
    List.Sorted workGE (mechanics_by_workload db) ∧
    (∀ p ∈ mechanics_by_workload db, p.2 = ticket_count db p.1.id) ∧
    (∀ m ∈ db.mechanics, ticket_count db m.id = 0 → (m, 0) ∈ mechanics_by_workload db) := by
  have hperm0 : (mechanics_by_workload db).Perm
      (db.mechanics.map (fun m => (m, ticket_count db m.id))) :=
    List.perm_insertionSort workGE _
  have hperm : ((mechanics_by_workload db).map Prod.fst).Perm db.mechanics := by
    have h := hperm0.map Prod.fst
    simpa [List.map_map, Function.comp_def] using h
  refine ⟨hperm, ?_, List.sorted_insertionSort workGE _, ?_, ?_⟩
  · intro m hm
    rw [hperm.count_eq]
    exact List.count_eq_one_of_mem hnd hm
  · intro p hp
    have hmem : p ∈ db.mechanics.map (fun m => (m, ticket_count db m.id)) :=
      hperm0.mem_iff.mp hp
    obtain ⟨m, _, hpe⟩ := List.mem_map.mp hmem
    rw [← hpe]
  · intro m hm h0
    have hmem : (m, ticket_count db m.id) ∈
        db.mechanics.map (fun m => (m, ticket_count db m.id)) :=
      List.mem_map_of_mem _ hm
    rw [h0] at hmem
    exact hperm0.mem_iff.mpr hmem

/-- Witness for C4 on the concrete store: mechanic 1 has one ticket and
mechanic 2 has none, and the report lists both, sorted, with counts 1
and 0. -/
theorem mechanics_by_workload_report_witness :
    ((mechanics_by_workload exDB).map Prod.fst).Perm exDB.mechanics ∧
    (∀ m ∈ exDB.mechanics, ((mechanics_by_workload exDB).map Prod.fst).count m = 1) ∧
    List.Sorted workGE (mechanics_by_workload exDB) ∧
    (∀ p ∈ mechanics_by_workload exDB, p.2 = ticket_count exDB p.1.id) ∧
    (∀ m ∈ exDB.mechanics, ticket_count exDB m.id = 0 → (m, 0) ∈ mechanics_by_workload exDB) :=
  mechanics_by_workload_report exDB (by decide)

/-! ### C8: bulk edit of a ticket's mechanics -/

/-- The removal loop, specified: the working set only shrinks, every id
yields exactly one outcome (a removal or a warning), every removed id was in
the set and is gone afterwards (for duplicate-free sets), and unremoved
members stay. -/
theorem processRemove_spec (db : DB) :
    ∀ (ids : List ReqId) (mechs : List Nat), mechs.Nodup →
    (processRemove db mechs ids).1 ⊆ mechs ∧
    (processRemove db mechs ids).2.1.length + (processRemove db mechs ids).2.2.length
      = ids.length ∧
    (∀ n ∈ (processRemove db mechs ids).2.1, n ∈ mechs ∧ n ∉ (processRemove db mechs ids).1) ∧
    (∀ n ∈ mechs, n ∉ (processRemove db mechs ids).2.1 → n ∈ (processRemove db mechs ids).1) := by
  intro ids
  induction ids with
  | nil =>
    intro mechs hnd
    simp [processRemove]
  | cons id rest ih =>
    intro mechs hnd
    cases id with
    | notInt =>
      rcases hrec : processRemove db mechs rest with ⟨m, r, w⟩
      have hih := ih mechs hnd
      rw [hrec] at hih
      dsimp only at hih
      simp only [processRemove, hrec]
      have hlen := hih.2.1
      refine ⟨hih.1, ?_, hih.2.2.1, hih.2.2.2⟩
      simp only [List.length_cons]
      omega
    | int n =>
      by_cases hex : (db.findMechanic n).isSome
      · by_cases hmem : mechs.contains n
        · rcases hrec : processRemove db (mechs.erase n) rest with ⟨m, r, w⟩
          have hih := ih (mechs.erase n) (hnd.erase n)
          rw [hrec] at hih
          dsimp only at hih
          simp only [processRemove, hex, hmem, if_true, hrec]
          have hlen := hih.2.1
          have hnm : n ∈ mechs := by simpa using hmem
          have hsub : m ⊆ mechs := fun x hx => (mechs.erase_subset n) (hih.1 hx)
          have hnin : n ∉ m := by
            intro hc
            have hc' := hih.1 hc
            exact ((hnd.mem_erase_iff).mp hc').1 rfl
          refine ⟨hsub, ?_, ?_, ?_⟩
          · simp only [List.length_cons]
            omega
          · intro x hx
            rcases List.mem_cons.mp hx with hx | hx
            · subst hx
              exact ⟨hnm, hnin⟩
            · exact ⟨(mechs.erase_subset n) (hih.2.2.1 x hx).1, (hih.2.2.1 x hx).2⟩
          · intro x hx hnr
            have hxn : x ≠ n := fun h => hnr (h ▸ List.mem_cons_self _ _)
            have hxr : x ∉ r := fun h => hnr (List.mem_cons_of_mem _ h)
            exact hih.2.2.2 x ((List.mem_erase_of_ne hxn).mpr hx) hxr
        · rcases hrec : processRemove db mechs rest with ⟨m, r, w⟩
          have hih := ih mechs hnd
          rw [hrec] at hih
          dsimp only at hih
          simp only [processRemove, hex, hmem, Bool.false_eq_true, if_true, if_false, hrec]
          have hlen := hih.2.1
          refine ⟨hih.1, ?_, hih.2.2.1, hih.2.2.2⟩
          simp only [List.length_cons]
          omega
      · rcases hrec : processRemove db mechs rest with ⟨m, r, w⟩
        have hih := ih mechs hnd
        rw [hrec] at hih
        dsimp only at hih
        simp only [processRemove, hex, Bool.false_eq_true, if_false, hrec]
        have hlen := hih.2.1
        refine ⟨hih.1, ?_, hih.2.2.1, hih.2.2.2⟩
        simp only [List.length_cons]
        omega

/-- The addition loop, specified: the working set only grows, every id
yields exactly one outcome (an addition or a warning), every added id is in
the final set and was not in the initial one, and the final set contains
nothing beyond the initial set and the additions. -/
theorem processAdd_spec (db : DB) :
    ∀ (ids : List ReqId) (mechs : List Nat),
    mechs ⊆ (processAdd db mechs ids).1 ∧
    (processAdd db mechs ids).2.1.length + (processAdd db mechs ids).2.2.length
      = ids.length ∧
    (∀ n ∈ (processAdd db mechs ids).2.1, n ∈ (processAdd db mechs ids).1 ∧ n ∉ mechs) ∧
    (∀ n ∈ (processAdd db mechs ids).1, n ∈ mechs ∨ n ∈ (processAdd db mechs ids).2.1) := by
  intro ids
  induction ids with
  | nil =>
    intro mechs
    simp [processAdd]
  | cons id rest ih =>
    intro mechs
    cases id with
    | notInt =>
      rcases hrec : processAdd db mechs rest with ⟨m, a, w⟩
      have hih := ih mechs
      rw [hrec] at hih
      dsimp only at hih
      simp only [processAdd, hrec]
      have hlen := hih.2.1
      refine ⟨hih.1, ?_, hih.2.2.1, hih.2.2.2⟩
      simp only [List.length_cons]
      omega
    | int n =>
      by_cases hex : (db.findMechanic n).isSome
      · by_cases hmem : mechs.contains n
        · rcases hrec : processAdd db mechs rest with ⟨m, a, w⟩
          have hih := ih mechs
          rw [hrec] at hih
          dsimp only at hih
          simp only [processAdd, hex, hmem, if_true, hrec]
          have hlen := hih.2.1
          refine ⟨hih.1, ?_, hih.2.2.1, hih.2.2.2⟩
          simp only [List.length_cons]
          omega
        · rcases hrec : processAdd db (mechs ++ [n]) rest with ⟨m, a, w⟩
          have hih := ih (mechs ++ [n])
          rw [hrec] at hih
          dsimp only at hih
          simp only [processAdd, hex, hmem, Bool.false_eq_true, if_true, if_false, hrec]
          have hlen := hih.2.1
          have hgrow : mechs ⊆ m := fun x hx => hih.1 (List.mem_append_left _ hx)
          have hnmem : n ∉ mechs := by simpa using hmem
          refine ⟨hgrow, ?_, ?_, ?_⟩
          · simp only [List.length_cons]
            omega
          · intro x hx
            rcases List.mem_cons.mp hx with hx | hx
            · subst hx
              exact ⟨hih.1 (List.mem_append_right _ (List.mem_singleton_self _)), hnmem⟩
            · exact ⟨(hih.2.2.1 x hx).1,
                fun hc => (hih.2.2.1 x hx).2 (List.mem_append_left _ hc)⟩
          · intro x hx
            rcases hih.2.2.2 x hx with hx' | hx'
            · rcases List.mem_append.mp hx' with hx' | hx'
              · exact Or.inl hx'
              · exact Or.inr (by simpa using Or.inl (by simpa using hx'))
            · exact Or.inr (List.mem_cons_of_mem _ hx')
      · rcases hrec : processAdd db mechs rest with ⟨m, a, w⟩
        have hih := ih mechs
        rw [hrec] at hih
        dsimp only at hih
        simp only [processAdd, hex, Bool.false_eq_true, if_false, hrec]
        have hlen := hih.2.1
        refine ⟨hih.1, ?_, hih.2.2.1, hih.2.2.2⟩
        simp only [List.length_cons]
        omega

/-- C8: a bulk edit against an existing ticket with a duplicate-free
mechanic set never aborts (status 200), produces exactly one outcome — an
applied change or a warning — per submitted id, and the committed row
reflects exactly the applied changes: every reported removal was assigned
before and (unless re-added) is gone, every reported addition is present and
was either new or previously removed, and every assignment that was not
reported removed survives. -/
theorem edit_ticket_mechanics_per_id (db : DB) (tid : Nat)
    (remove_ids add_ids : List ReqId) (t : ServiceTicket)
    (ht : db.findTicket tid = some t) (hnd : t.mechanics.Nodup) :
    let E := edit_ticket_mechanics db tid remove_ids add_ids
    E.1.status = 200 ∧
    E.1.removed.length + E.1.added.length + E.1.warnings.length
      = remove_ids.length + add_ids.length ∧
    ∃ t' ∈ E.2.tickets,
      t'.id = t.id ∧
      (∀ n ∈ E.1.removed, n ∈ t.mechanics) ∧
      (∀ n ∈ E.1.removed, n ∉ E.1.added → n ∉ t'.mechanics) ∧
      (∀ n ∈ E.1.added, n ∈ t'.mechanics) ∧
      (∀ n ∈ E.1.added, n ∈ t.mechanics → n ∈ E.1.removed) ∧
      (∀ n ∈ t.mechanics, n ∉ E.1.removed → n ∈ t'.mechanics) := by
  intro E
  have htm : t ∈ db.tickets := List.mem_of_find?_eq_some ht
  rcases hR : processRemove db t.mechanics remove_ids with ⟨m1, removed, w1⟩
  rcases hA : processAdd db m1 add_ids with ⟨m2, added, w2⟩
  have hPR := processRemove_spec db remove_ids t.mechanics hnd
  rw [hR] at hPR
  dsimp only at hPR
  have hPA := processAdd_spec db add_ids m1
  rw [hA] at hPA
  dsimp only at hPA
  have hE : E = ({ status := 200, removed := removed, added := added, warnings := w1 ++ w2 },
      db.setTicket { t with mechanics := m2 }) := by
    simp only [E, edit_ticket_mechanics, ht, hR, hA]
  rw [hE]
  refine ⟨rfl, by simp [List.length_append]; omega,
    { t with mechanics := m2 }, mem_setTicket db t _ htm rfl, rfl, ?_, ?_, ?_, ?_, ?_⟩
  · intro n hn
    exact (hPR.2.2.1 n hn).1
  · intro n hn hna hc
    rcases hPA.2.2.2 n hc with hc' | hc'
    · exact (hPR.2.2.1 n hn).2 hc'
    · exact hna hc'
  · intro n hn
    exact (hPA.2.2.1 n hn).1
  · intro n hn hmem
    by_contra hnr
    exact (hPA.2.2.1 n hn).2 (hPR.2.2.2 n hmem hnr)
  · intro n hn hnr
    exact hPA.1 (hPR.2.2.2 n hn hnr)

/-- Witness for C8 on the concrete store: ticket 1 (mechanics `[1]`),
removing `[1, 2, not-an-int]` and adding `[2, 2, 99]` yields status 200,
one removal, one addition, four warnings, and the committed set `[2]`. -/
theorem edit_ticket_mechanics_per_id_witness :
    let E := edit_ticket_mechanics exDB 1
      [ReqId.int 1, ReqId.int 2, ReqId.notInt] [ReqId.int 2, ReqId.int 2, ReqId.int 99]
    E.1.status = 200 ∧
    E.1.removed.length + E.1.added.length + E.1.warnings.length = 3 + 3 ∧
    ∃ t' ∈ E.2.tickets,
      t'.id = exTicket.id ∧
      (∀ n ∈ E.1.removed, n ∈ exTicket.mechanics) ∧
      (∀ n ∈ E.1.removed, n ∉ E.1.added → n ∉ t'.mechanics) ∧
      (∀ n ∈ E.1.added, n ∈ t'.mechanics) ∧
      (∀ n ∈ E.1.added, n ∈ exTicket.mechanics → n ∈ E.1.removed) ∧
      (∀ n ∈ exTicket.mechanics, n ∉ E.1.removed → n ∈ t'.mechanics) :=
  edit_ticket_mechanics_per_id exDB 1
    [ReqId.int 1, ReqId.int 2, ReqId.notInt] [ReqId.int 2, ReqId.int 2, ReqId.int 99]
    exTicket rfl (by decide)

end MechanicAPI
